import Mathlib

/-!
Verification development for the cedar_demo authorization pipeline.

The definitions below are a shallow embedding of the Rust sources:
  - `src/jwt/src/lib.rs` (the unvalidated JWT decoder),
  - `src/authz/src/authz/types.rs` (token claim records and entity synthesis),
  - `src/authz/src/authz/jwt_data_handler.rs` (token decoding and `JWTData::entities`),
  - `src/authz/src/authz.rs` (the `Authz::handle` pipeline).

External collaborators (serde_json text parsing, cedar-policy entity-uid
parsing, entity construction, entity-set union, request assembly) are
modelled concretely on the subset of their behaviour the repository
exercises; the policy evaluator itself is kept opaque, as a function
parameter.  Machine integers (Rust `i64`) are modelled as `Int` with the
explicit i64 range bounds where the code's behaviour depends on them.
-/

deriving instance DecidableEq for Except

namespace CedarDemo

/-! ## Rust `str::split(char)` -/

/-- Model of Rust `str::split(c)` over the character list: `n` separators
yield `n + 1` segments, empty segments included (so the result is never
empty). -/
def splitCharAux (c : Char) : List Char → List Char → List (List Char)
  | [], acc => [acc.reverse]
  | x :: xs, acc =>
    if x = c then acc.reverse :: splitCharAux c xs []
    else splitCharAux c xs (x :: acc)

/-- Rust `s.split(c)` collected into a list of strings. -/
def rustSplit (c : Char) (s : String) : List String :=
  (splitCharAux c s.data []).map (fun l => String.mk l)

/-! ## JSON values (serde_json::Value) -/

/-- A `serde_json` number.  `int i` is a number on which `as_i64` succeeds;
`dec s` is a number handled through the `as_f64` path (a non-integral
literal, or an integer literal outside the i64 range), carrying the decimal
rendering that Rust `f64::to_string` would produce for it. -/
inductive JsonNum where
  | int (i : Int)
  | dec (s : String)
deriving DecidableEq, Repr

/-- `serde_json::Value`.  Object fields are kept in source order; the
concrete inputs used in this development have no repeated keys. -/
inductive Json where
  | null
  | bool (b : Bool)
  | num (n : JsonNum)
  | str (s : String)
  | arr (elems : List Json)
  | obj (fields : List (String × Json))

mutual

/-- Structural equality test for `Json`, recursing through the nested list
positions, for which no deriving handler applies. -/
def Json.beq : Json → Json → Bool
  | .null, .null => true
  | .bool a, .bool b => a == b
  | .num a, .num b => a == b
  | .str a, .str b => a == b
  | .arr a, .arr b => Json.beqList a b
  | .obj a, .obj b => Json.beqFields a b
  | _, _ => false

def Json.beqList : List Json → List Json → Bool
  | x :: xs, y :: ys => Json.beq x y && Json.beqList xs ys
  | [], [] => true
  | _, _ => false

def Json.beqFields : List (String × Json) → List (String × Json) → Bool
  | f :: fs, g :: gs => f.1 == g.1 && Json.beq f.2 g.2 && Json.beqFields fs gs
  | [], [] => true
  | _, _ => false

end

mutual

theorem Json.beq_iff_eq : ∀ a b : Json, Json.beq a b = true ↔ a = b
  | .null, b => by cases b <;> simp [Json.beq]
  | .bool _, b => by cases b <;> simp [Json.beq]
  | .num _, b => by cases b <;> simp [Json.beq]
  | .str _, b => by cases b <;> simp [Json.beq]
  | .arr x, .arr y => by simp [Json.beq, Json.beqList_iff_eq x y]
  | .arr _, .null | .arr _, .bool _ | .arr _, .num _
  | .arr _, .str _ | .arr _, .obj _ => by simp [Json.beq]
  | .obj x, .obj y => by simp [Json.beq, Json.beqFields_iff_eq x y]
  | .obj _, .null | .obj _, .bool _ | .obj _, .num _
  | .obj _, .str _ | .obj _, .arr _ => by simp [Json.beq]

theorem Json.beqList_iff_eq : ∀ xs ys : List Json, Json.beqList xs ys = true ↔ xs = ys
  | x :: xs, y :: ys => by
    simp [Json.beqList, Json.beq_iff_eq x y, Json.beqList_iff_eq xs ys]
  | [], [] => by simp [Json.beqList]
  | [], _ :: _ => by simp [Json.beqList]
  | _ :: _, [] => by simp [Json.beqList]

theorem Json.beqFields_iff_eq :
    ∀ xs ys : List (String × Json), Json.beqFields xs ys = true ↔ xs = ys
  | f :: fs, g :: gs => by
    simp [Json.beqFields, Json.beq_iff_eq f.2 g.2, Json.beqFields_iff_eq fs gs,
      Prod.ext_iff, and_assoc]
  | [], [] => by simp [Json.beqFields]
  | [], _ :: _ => by simp [Json.beqFields]
  | _ :: _, [] => by simp [Json.beqFields]

end

instance : DecidableEq Json := fun a b =>
  decidable_of_iff (Json.beq a b = true) (Json.beq_iff_eq a b)

/-! ## JSON text parsing (serde_json::from_str)

A fuel-based recursive-descent parser for the JSON subset the repository
exercises: `null`, booleans, strings with the common escapes, integer and
plain decimal number literals, arrays and objects, with whitespace.  The
fuel supplied by `jsonFromStr` is generous enough for every input whose
nesting depth and element count are bounded by its length, which covers
all JSON text. -/

/-- The `serde_json::Error` values the model distinguishes. -/
inductive JsonError where
  | syntaxErr
  | trailing
  | missingField (name : String)
  | wrongType (name : String)
  | duplicateField (name : String)
deriving DecidableEq, Repr

def isWs (c : Char) : Bool :=
  c == ' ' || c == '\n' || c == '\t' || c == '\r'

def skipWs (cs : List Char) : List Char :=
  cs.dropWhile isWs

/-- Parse the body of a JSON string literal (the opening quote already
consumed), handling the escapes `\"`, `\\`, `\/`, `\n`, `\t`, `\r`. -/
def parseStrBody (fuel : Nat) (cs : List Char) (acc : List Char) :
    Except JsonError (String × List Char) :=
  match fuel, cs with
  | 0, _ => .error .syntaxErr
  | _ + 1, [] => .error .syntaxErr
  | f + 1, c :: rest =>
    if c = '"' then .ok (String.mk acc.reverse, rest)
    else if c = '\\' then
      match rest with
      | [] => .error .syntaxErr
      | e :: rest₂ =>
        if e = '"' then parseStrBody f rest₂ ('"' :: acc)
        else if e = '\\' then parseStrBody f rest₂ ('\\' :: acc)
        else if e = '/' then parseStrBody f rest₂ ('/' :: acc)
        else if e = 'n' then parseStrBody f rest₂ ('\n' :: acc)
        else if e = 't' then parseStrBody f rest₂ ('\t' :: acc)
        else if e = 'r' then parseStrBody f rest₂ ('\r' :: acc)
        else .error .syntaxErr
    else parseStrBody f rest (c :: acc)

def digitsToNat (ds : List Char) : Nat :=
  ds.foldl (fun n c => n * 10 + (c.toNat - '0'.toNat)) 0

def i64Max : Int := 9223372036854775807
def i64MinAbs : Nat := 9223372036854775808

/-- Render the decimal value that Rust float formatting would print for a
literal with integer part `ds` and fractional part `fs`: trailing zeros of
the fraction are dropped, and a fraction that vanishes drops the dot. -/
def renderDec (neg : Bool) (ds fs : List Char) : String :=
  let fs' := (fs.reverse.dropWhile (· = '0')).reverse
  let sign : List Char := if neg then ['-'] else []
  if fs'.isEmpty then String.mk (sign ++ ds)
  else String.mk (sign ++ ds ++ '.' :: fs')

/-- Parse a JSON number literal.  Integer literals inside the i64 range
become `JsonNum.int` (the `as_i64` path); fractional literals and integers
outside the range take the `as_f64` path and become `JsonNum.dec` with
their decimal rendering (for out-of-range integers the rendering is
approximated by the raw digits).  Exponent notation is outside the
modelled subset. -/
def parseNumber (neg : Bool) (cs : List Char) :
    Except JsonError (JsonNum × List Char) :=
  let ds := cs.takeWhile Char.isDigit
  let rest := cs.dropWhile Char.isDigit
  match ds with
  | [] => .error .syntaxErr
  | d :: ds' =>
    if d = '0' ∧ ds' ≠ [] then .error .syntaxErr
    else
      match rest with
      | '.' :: rest₂ =>
        let fs := rest₂.takeWhile Char.isDigit
        let rest₃ := rest₂.dropWhile Char.isDigit
        if fs.isEmpty then .error .syntaxErr
        else .ok (.dec (renderDec neg ds fs), rest₃)
      | _ =>
        let n := digitsToNat ds
        if neg then
          if n ≤ i64MinAbs then .ok (.int (-(n : Int)), rest)
          else .ok (.dec (renderDec true ds []), rest)
        else
          if (n : Int) ≤ i64Max then .ok (.int (n : Int), rest)
          else .ok (.dec (renderDec false ds []), rest)

def expectLit (lit : List Char) (cs : List Char) : Except JsonError (List Char) :=
  if lit.isPrefixOf cs then .ok (cs.drop lit.length) else .error .syntaxErr

mutual

def parseValue : Nat → List Char → Except JsonError (Json × List Char)
  | 0, _ => .error .syntaxErr
  | f + 1, cs =>
    match skipWs cs with
    | [] => .error .syntaxErr
    | c :: rest =>
      if c = 'n' then (expectLit ['u', 'l', 'l'] rest).map (fun r => (.null, r))
      else if c = 't' then (expectLit ['r', 'u', 'e'] rest).map (fun r => (.bool true, r))
      else if c = 'f' then (expectLit ['a', 'l', 's', 'e'] rest).map (fun r => (.bool false, r))
      else if c = '"' then
        (parseStrBody (rest.length + 1) rest []).map (fun p => (.str p.1, p.2))
      else if c = '-' then (parseNumber true rest).map (fun p => (.num p.1, p.2))
      else if c.isDigit then
        (parseNumber false (c :: rest)).map (fun p => (.num p.1, p.2))
      else if c = '[' then
        match skipWs rest with
        | ']' :: rest₂ => .ok (.arr [], rest₂)
        | cs₂ => parseElems f cs₂ []
      else if c = '{' then
        match skipWs rest with
        | '}' :: rest₂ => .ok (.obj [], rest₂)
        | cs₂ => parseFields f cs₂ []
      else .error .syntaxErr

def parseElems (fuel : Nat) (cs : List Char) (acc : List Json) :
    Except JsonError (Json × List Char) :=
  match fuel with
  | 0 => .error .syntaxErr
  | f + 1 =>
    match parseValue f cs with
    | .error e => .error e
    | .ok (v, rest) =>
      match skipWs rest with
      | ',' :: rest₂ => parseElems f rest₂ (v :: acc)
      | ']' :: rest₂ => .ok (.arr (v :: acc).reverse, rest₂)
      | _ => .error .syntaxErr

def parseFields (fuel : Nat) (cs : List Char) (acc : List (String × Json)) :
    Except JsonError (Json × List Char) :=
  match fuel with
  | 0 => .error .syntaxErr
  | f + 1 =>
    match skipWs cs with
    | '"' :: rest =>
      match parseStrBody (rest.length + 1) rest [] with
      | .error e => .error e
      | .ok (k, rest₂) =>
        match skipWs rest₂ with
        | ':' :: rest₃ =>
          match parseValue f rest₃ with
          | .error e => .error e
          | .ok (v, rest₄) =>
            match skipWs rest₄ with
            | ',' :: rest₅ => parseFields f rest₅ ((k, v) :: acc)
            | '}' :: rest₅ => .ok (.obj ((k, v) :: acc).reverse, rest₅)
            | _ => .error .syntaxErr
        | _ => .error .syntaxErr
    | _ => .error .syntaxErr

end

/-- `serde_json::from_str` into a `Json` value: parse one value and require
only whitespace after it. -/
def jsonFromStr (s : String) : Except JsonError Json :=
  match parseValue (2 * s.data.length + 2) s.data with
  | .error e => .error e
  | .ok (v, rest) => if (skipWs rest).isEmpty then .ok v else .error .trailing

/-- `serde_json::from_str::<T>`: JSON text parsing followed by the schema
(`Deserialize`) step for `T`. -/
def serdeFromStr (fromJson : Json → Except JsonError α) (s : String) :
    Except JsonError α :=
  match jsonFromStr s with
  | .error e => .error e
  | .ok v => fromJson v

/-! ## Schema (serde `Deserialize`) for the token claim records

The three claim records of `src/authz/src/authz/types.rs`.  A record
deserializes from a JSON object; a missing required field or a field of the
wrong type is an error; fields not named in the struct are collected by the
`#[serde(flatten)]` map `extra`. -/

def jlookup (fields : List (String × Json)) (name : String) : Option Json :=
  (fields.find? (fun p => p.1 == name)).map (fun p => p.2)

def getStrField (fields : List (String × Json)) (name : String) :
    Except JsonError String :=
  match jlookup fields name with
  | some (.str s) => .ok s
  | some _ => .error (.wrongType name)
  | none => .error (.missingField name)

def getI64Field (fields : List (String × Json)) (name : String) :
    Except JsonError Int :=
  match jlookup fields name with
  | some (.num (.int i)) => .ok i
  | some _ => .error (.wrongType name)
  | none => .error (.missingField name)

def getOptStrField (fields : List (String × Json)) (name : String) :
    Except JsonError (Option String) :=
  match jlookup fields name with
  | none => .ok none
  | some .null => .ok none
  | some (.str s) => .ok (some s)
  | some _ => .error (.wrongType name)

def asStrList (name : String) : List Json → Except JsonError (List String)
  | [] => .ok []
  | .str s :: rest => (asStrList name rest).map (fun l => s :: l)
  | _ :: _ => .error (.wrongType name)

/-- Insert a string into a sorted duplicate-free list: the `BTreeSet`
iteration order. -/
def insertStr (s : String) : List String → List String
  | [] => [s]
  | x :: xs =>
    if s = x then x :: xs
    else if s < x then s :: x :: xs
    else x :: insertStr s xs

def btreeSetOfList (l : List String) : List String :=
  l.foldl (fun acc s => insertStr s acc) []

def getStrSetField (fields : List (String × Json)) (name : String) :
    Except JsonError (List String) :=
  match jlookup fields name with
  | some (.arr l) => (asStrList name l).map btreeSetOfList
  | some _ => .error (.wrongType name)
  | none => .error (.missingField name)

/-- The `IdToken` claim record of `types.rs` (the variant with required
`jti`/`iss`/`aud`/`sub`/`iat`/`exp`, optional `acr`/`azp`, defaulted
`amr : BTreeSet<String>`, and flattened `extra`). -/
structure IdToken where
  jti : String
  iss : String
  aud : String
  sub : String
  iat : Int
  exp : Int
  acr : Option String
  azp : Option String
  amr : List String
  extra : List (String × Json)
deriving DecidableEq

def idTokenNamed : List String :=
  ["jti", "iss", "aud", "sub", "iat", "exp", "acr", "azp", "amr"]

def IdToken.fromJson : Json → Except JsonError IdToken
  | .obj fields => do
    let jti ← getStrField fields "jti"
    let iss ← getStrField fields "iss"
    let aud ← getStrField fields "aud"
    let sub ← getStrField fields "sub"
    let iat ← getI64Field fields "iat"
    let exp ← getI64Field fields "exp"
    let acr ← getOptStrField fields "acr"
    let azp ← getOptStrField fields "azp"
    let amr ←
      match jlookup fields "amr" with
      | none => pure []
      | some (.arr l) => (asStrList "amr" l).map btreeSetOfList
      | some _ => .error (.wrongType "amr")
    pure ⟨jti, iss, aud, sub, iat, exp, acr, azp, amr,
      fields.filter (fun p => !(idTokenNamed.contains p.1))⟩
  | _ => .error .syntaxErr

/-- The `UserInfoToken` claim record: required string claims
`jti`/`iss`/`sub`/`aud`/`inum` plus the flattened `extra` map. -/
structure UserInfoToken where
  jti : String
  iss : String
  sub : String
  aud : String
  inum : String
  extra : List (String × Json)
deriving DecidableEq

def userInfoNamed : List String := ["jti", "iss", "sub", "aud", "inum"]

def UserInfoToken.fromJson : Json → Except JsonError UserInfoToken
  | .obj fields => do
    let jti ← getStrField fields "jti"
    let iss ← getStrField fields "iss"
    let sub ← getStrField fields "sub"
    let aud ← getStrField fields "aud"
    let inum ← getStrField fields "inum"
    pure ⟨jti, iss, sub, aud, inum,
      fields.filter (fun p => !(userInfoNamed.contains p.1))⟩
  | _ => .error .syntaxErr

/-- The `AccessToken` claim record: `jti`/`iss`/`aud`/`client_id` strings,
`scope : HashSet<String>`, `exp`/`iat` integers, flattened `extra`. -/
structure AccessToken where
  jti : String
  iss : String
  aud : String
  scope : List String
  client_id : String
  exp : Int
  iat : Int
  extra : List (String × Json)
deriving DecidableEq

def accessNamed : List String :=
  ["jti", "iss", "aud", "scope", "client_id", "exp", "iat"]

def AccessToken.fromJson : Json → Except JsonError AccessToken
  | .obj fields => do
    let jti ← getStrField fields "jti"
    let iss ← getStrField fields "iss"
    let aud ← getStrField fields "aud"
    let scope ← getStrSetField fields "scope"
    let client_id ← getStrField fields "client_id"
    let exp ← getI64Field fields "exp"
    let iat ← getI64Field fields "iat"
    pure ⟨jti, iss, aud, scope, client_id, exp, iat,
      fields.filter (fun p => !(accessNamed.contains p.1))⟩
  | _ => .error .syntaxErr

/-! ## The unvalidated JWT decoder (`src/jwt/src/lib.rs`) -/

/-- `jwt::DecodeError`. -/
inductive DecodeError where
  | MalformedJWT
  | UnableToParseBase64AsJson (e : JsonError)
deriving DecidableEq, Repr

/-- `decode_jwt_without_validation`: split the token on `'.'`, take the
second segment (`nth(1)`), and feed that segment as it stands to
`serde_json::from_str` — no transport decoding happens in between. -/
def decode_jwt_without_validation (fromJson : Json → Except JsonError α)
    (jwt : String) : Except DecodeError α :=
  match (rustSplit '.' jwt).get? 1 with
  | none => .error .MalformedJWT
  | some payload =>
    match serdeFromStr fromJson payload with
    | .error e => .error (.UnableToParseBase64AsJson e)
    | .ok t => .ok t

/-- `jwt::JWTDecoder`.  The source's `WithValidation` arm is `todo!()`
(unimplemented, it panics), so only the unvalidated strategy is modelled. -/
inductive JWTDecoder where
  | withoutValidation
deriving DecidableEq

def JWTDecoder.decode (dec : JWTDecoder) (fromJson : Json → Except JsonError α)
    (jwt : String) : Except DecodeError α :=
  match dec with
  | .withoutValidation => decode_jwt_without_validation fromJson jwt

/-! ## Cedar model

The slice of `cedar_policy` the repository uses, modelled concretely:
entity uids, restricted expressions, entities, entity-set union, request
assembly.  The policy evaluator stays opaque (a function parameter). -/

/-- `cedar_policy::EntityUid`: the (type name, entity id) identity pair. -/
structure EntityUid where
  ty : String
  id : String
deriving DecidableEq, Repr

/-- A cedar identifier: a letter or underscore followed by letters, digits
or underscores. -/
def isIdentChars (cs : List Char) : Bool :=
  match cs with
  | [] => false
  | c :: rest => (c.isAlpha || c = '_') && rest.all (fun d => d.isAlphanum || d = '_')

/-- Split a character list on the two-character separator `::`. -/
def splitColons : List Char → List Char → List (List Char)
  | [], acc => [acc.reverse]
  | ':' :: ':' :: rest, acc => acc.reverse :: splitColons rest []
  | c :: rest, acc => splitColons rest (c :: acc)

/-- A cedar entity type name: a non-empty `::`-separated path of
identifiers. -/
def isTypeName (s : String) : Bool :=
  (splitColons s.data []).all isIdentChars

/-- `cedar_policy::RestrictedExpression`, restricted to the constructors the
repository builds: scalar literals, the `decimal` extension call, entity-uid
literals and set literals. -/
inductive RExpr where
  | str (s : String)
  | long (i : Int)
  | bool (b : Bool)
  | decimal (s : String)
  | euid (u : EntityUid)
  | set (l : List RExpr)

mutual

def RExpr.beq : RExpr → RExpr → Bool
  | .str a, .str b => a == b
  | .long a, .long b => a == b
  | .bool a, .bool b => a == b
  | .decimal a, .decimal b => a == b
  | .euid a, .euid b => a == b
  | .set a, .set b => RExpr.beqList a b
  | _, _ => false

def RExpr.beqList : List RExpr → List RExpr → Bool
  | x :: xs, y :: ys => RExpr.beq x y && RExpr.beqList xs ys
  | [], [] => true
  | _, _ => false

end

mutual

theorem rexprBeq_iff_eq : ∀ a b : RExpr, RExpr.beq a b = true ↔ a = b
  | .str _, b => by cases b <;> simp [RExpr.beq]
  | .long _, b => by cases b <;> simp [RExpr.beq]
  | .bool _, b => by cases b <;> simp [RExpr.beq]
  | .decimal _, b => by cases b <;> simp [RExpr.beq]
  | .euid _, b => by cases b <;> simp [RExpr.beq]
  | .set x, .set y => by simp [RExpr.beq, rexprBeqList_iff_eq x y]
  | .set _, .str _ | .set _, .long _ | .set _, .bool _
  | .set _, .decimal _ | .set _, .euid _ => by simp [RExpr.beq]

theorem rexprBeqList_iff_eq : ∀ xs ys : List RExpr, RExpr.beqList xs ys = true ↔ xs = ys
  | x :: xs, y :: ys => by
    simp [RExpr.beqList, rexprBeq_iff_eq x y, rexprBeqList_iff_eq xs ys]
  | [], [] => by simp [RExpr.beqList]
  | [], _ :: _ => by simp [RExpr.beqList]
  | _ :: _, [] => by simp [RExpr.beqList]

end

instance : DecidableEq RExpr := fun a b =>
  decidable_of_iff (RExpr.beq a b = true) (rexprBeq_iff_eq a b)

/-- A valid argument to the cedar `decimal` extension function:
an optional minus sign, digits, a dot, and one to four fractional digits
(the i64 magnitude bound on the scaled value is not modelled; no input in
this development approaches it). -/
def decimalValid (s : String) : Bool :=
  let cs := if s.data.headD ' ' = '-' then s.data.tail else s.data
  let ds := cs.takeWhile Char.isDigit
  match cs.dropWhile Char.isDigit with
  | '.' :: fs => !(ds.isEmpty) && !(fs.isEmpty) && fs.length ≤ 4 && fs.all Char.isDigit
  | _ => false

mutual

/-- Evaluability of a restricted expression when an `Entity` is built:
scalar, uid and set literals always evaluate; a `decimal` extension call
evaluates exactly when its argument parses as a cedar decimal. -/
def RExpr.valid : RExpr → Bool
  | .str _ => true
  | .long _ => true
  | .bool _ => true
  | .decimal s => decimalValid s
  | .euid _ => true
  | .set l => RExpr.validList l

def RExpr.validList : List RExpr → Bool
  | [] => true
  | x :: xs => RExpr.valid x && RExpr.validList xs

end

/-- `cedar_policy::EntityAttrEvaluationError` (payload not modelled). -/
inductive EntityAttrEvaluationError where
  | evaluationFailed
deriving DecidableEq, Repr

/-- A cedar `Entity`: identity, attribute map (kept in construction order)
and parent identities. -/
structure Entity where
  uid : EntityUid
  attrs : List (String × RExpr)
  parents : List EntityUid
deriving DecidableEq

/-- `cedar_policy::Entity::new`: evaluates every attribute expression,
failing iff one of them does not evaluate. -/
def Entity.new (uid : EntityUid) (attrs : List (String × RExpr))
    (parents : List EntityUid) : Except EntityAttrEvaluationError Entity :=
  if attrs.all (fun p => RExpr.valid p.2) then .ok ⟨uid, attrs, parents⟩
  else .error .evaluationFailed

/-- Entity-uid construction from the fields of an `__entity`-style JSON
object: requires exactly a `type` and an `id` string field and a
well-formed type name. -/
def euidFieldsToUid (fields : List (String × Json)) : Except String EntityUid :=
  match fields with
  | [(k₁, .str v₁), (k₂, .str v₂)] =>
    if k₁ = "type" ∧ k₂ = "id" then
      if isTypeName v₁ then .ok ⟨v₁, v₂⟩ else .error "invalid entity type name"
    else if k₁ = "id" ∧ k₂ = "type" then
      if isTypeName v₂ then .ok ⟨v₂, v₁⟩ else .error "invalid entity type name"
    else .error "expected a type and an id field"
  | _ => .error "expected a type and an id field"

/-- `cedar_policy::EntityUid::from_json`: accepts the explicit
`{"__entity": {"type": ..., "id": ...}}` escape and the implicit
`{"type": ..., "id": ...}` form. -/
def EntityUid.fromJsonVal : Json → Except String EntityUid
  | .obj [("__entity", .obj inner)] => euidFieldsToUid inner
  | .obj fields => euidFieldsToUid fields
  | _ => .error "expected an entity uid object"

/-! ## Entity synthesis (`src/authz/src/authz/types.rs`) -/

/-- `EntityCreatingError` of `types.rs`. -/
inductive EntityCreatingError where
  | CreateFromJson (msg : String)
  | NewEntity (e : EntityAttrEvaluationError)
deriving DecidableEq, Repr

mutual

/-- `json_to_expression`: the generic, partial, lossy conversion from an
unmodeled JSON claim value to a restricted expression.  Numbers on the
`as_i64` path become long literals; numbers on the `as_f64` path become
`decimal` extension calls on their decimal rendering.  (The source's final
`None` arm for numbers that are neither `i64` nor `f64` is unreachable:
`as_f64` succeeds on every `serde_json` number.) -/
def json_to_expression : Json → Option RExpr
  | .null => none
  | .bool v => some (.bool v)
  | .num (.int i) => some (.long i)
  | .num (.dec s) => some (.decimal s)
  | .str v => some (.str v)
  | .arr v => some (.set (jsonListToExpressions v))
  | .obj _ => none

/-- The element-wise conversion of an array (`filter_map` in the source):
unconvertible elements are dropped. -/
def jsonListToExpressions : List Json → List RExpr
  | [] => []
  | x :: xs =>
    match json_to_expression x with
    | some e => e :: jsonListToExpressions xs
    | none => jsonListToExpressions xs

end

/-- `IdToken::get_token_entity`: identity `(IdToken, jti)`; attributes
`jti`, `aud`, `sub`, `iat`, `exp`, `amr` (a set of strings), plus `azp` and
`acr` when present; no parents. -/
def IdToken.get_token_entity (t : IdToken) : Except EntityCreatingError Entity :=
  match EntityUid.fromJsonVal
      (.obj [("__entity", .obj [("type", .str "IdToken"), ("id", .str t.jti)])]) with
  | .error e => .error (.CreateFromJson e)
  | .ok uid =>
    let amr := t.amr.map RExpr.str
    let base : List (String × RExpr) :=
      [("jti", .str t.jti), ("aud", .str t.aud), ("sub", .str t.sub),
       ("iat", .long t.iat), ("exp", .long t.exp), ("amr", .set amr)]
    let withAzp :=
      match t.azp with
      | some azp => base ++ [("azp", RExpr.str azp)]
      | none => base
    let attrs :=
      match t.acr with
      | some acr => withAzp ++ [("acr", RExpr.str acr)]
      | none => withAzp
    match Entity.new uid attrs [] with
    | .error e => .error (.NewEntity e)
    | .ok e => .ok e

/-- `UserInfoToken::get_user_entity`: identity `(User, inum)`; attribute
`sub` plus every extra claim convertible by `json_to_expression`; parents
are the uids of the supplied role entities. -/
def UserInfoToken.get_user_entity (t : UserInfoToken) (roles : List Entity) :
    Except EntityCreatingError Entity :=
  match EntityUid.fromJsonVal
      (.obj [("__entity", .obj [("type", .str "User"), ("id", .str t.inum)])]) with
  | .error e => .error (.CreateFromJson e)
  | .ok uid =>
    let attrs : List (String × RExpr) :=
      ("sub", .str t.sub) ::
        t.extra.filterMap (fun p => (json_to_expression p.2).map (fun e => (p.1, e)))
    let parents := roles.map (fun e => e.uid)
    match Entity.new uid attrs parents with
    | .error e => .error (.NewEntity e)
    | .ok e => .ok e

/-- `AccessToken::get_client_entity`: identity `(Client, aud)`; attributes
`client_id` and `iss`; no parents. -/
def AccessToken.get_client_entity (t : AccessToken) :
    Except EntityCreatingError Entity :=
  match EntityUid.fromJsonVal
      (.obj [("__entity", .obj [("type", .str "Client"), ("id", .str t.aud)])]) with
  | .error e => .error (.CreateFromJson e)
  | .ok uid =>
    match Entity.new uid [("client_id", .str t.client_id), ("iss", .str t.iss)] [] with
    | .error e => .error (.NewEntity e)
    | .ok e => .ok e

/-- `AccessToken::get_application_entity`: identity `(Application, aud)`;
attributes the configured application name and an entity reference to the
client entity; no parents. -/
def AccessToken.get_application_entity (t : AccessToken)
    (application_name : String) (client_uid : EntityUid) :
    Except EntityCreatingError Entity :=
  match EntityUid.fromJsonVal
      (.obj [("__entity", .obj [("type", .str "Application"), ("id", .str t.aud)])]) with
  | .error e => .error (.CreateFromJson e)
  | .ok uid =>
    match Entity.new uid [("name", .str application_name), ("client", .euid client_uid)] [] with
    | .error e => .error (.NewEntity e)
    | .ok e => .ok e

/-! ## Token decoding and entity collection
(`src/authz/src/authz/jwt_data_handler.rs`) -/

/-- `CedarParams`: the non-token parameters of the input document. -/
structure CedarParams where
  action : String
  resource : Json
  context : Json
deriving DecidableEq

/-- `AuthzInputRaw`: the raw input document, token strings still encoded. -/
structure AuthzInputRaw where
  id_token : String
  userinfo_token : String
  access_token : String
  extra : CedarParams
deriving DecidableEq

/-- `DecodeTokensError`, tagged by the token that failed to decode. -/
inductive DecodeTokensError where
  | IdToken (e : DecodeError)
  | UserInfoToken (e : DecodeError)
  | AccessToken (e : DecodeError)
deriving DecidableEq, Repr

/-- `JWTData`: the three decoded claim records. -/
structure JWTData where
  id_token : IdToken
  userinfo_token : UserInfoToken
  access_token : AccessToken
deriving DecidableEq

/-- `AuthzInput`: decoded tokens plus the cedar parameters. -/
structure AuthzInput where
  jwt : JWTData
  chedar_params : CedarParams
deriving DecidableEq

/-- `AuthzInputRaw::decode_tokens`: decode the three tokens in order,
tagging the first failure with its token kind. -/
def AuthzInputRaw.decode_tokens (input : AuthzInputRaw) (decoder : JWTDecoder) :
    Except DecodeTokensError AuthzInput :=
  match decoder.decode IdToken.fromJson input.id_token with
  | .error e => .error (.IdToken e)
  | .ok id_token =>
    match decoder.decode UserInfoToken.fromJson input.userinfo_token with
    | .error e => .error (.UserInfoToken e)
    | .ok userinfo_token =>
      match decoder.decode AccessToken.fromJson input.access_token with
      | .error e => .error (.AccessToken e)
      | .ok access_token =>
        .ok ⟨⟨id_token, userinfo_token, access_token⟩, input.extra⟩

/-- `AuthzInputEntitiesError`, tagged by the entity kind that failed. -/
inductive AuthzInputEntitiesError where
  | IdTokenEntity (e : EntityCreatingError)
  | UserEntity (e : EntityCreatingError)
  | AccessTokenEntity (e : EntityCreatingError)
  | ApplicationEntity (e : EntityCreatingError)
deriving DecidableEq, Repr

/-- `JWTDataEntities`: the synthesized entities plus the principal uid. -/
structure JWTDataEntities where
  entities : List Entity
  user_entity_uid : EntityUid
deriving DecidableEq

/-- `JWTData::entities`: synthesize the id-token, user and client entities,
and the application entity exactly when an application name is configured;
the principal uid is the user entity's. -/
def JWTData.entities (d : JWTData) (application_name : Option String) :
    Except AuthzInputEntitiesError JWTDataEntities :=
  match d.id_token.get_token_entity with
  | .error e => .error (.IdTokenEntity e)
  | .ok id_token_entity =>
    match d.userinfo_token.get_user_entity [] with
    | .error e => .error (.UserEntity e)
    | .ok user_entity =>
      let user_entity_uid := user_entity.uid
      match d.access_token.get_client_entity with
      | .error e => .error (.AccessTokenEntity e)
      | .ok client_entity =>
        let client_entity_uid := client_entity.uid
        let list := [id_token_entity, user_entity, client_entity]
        match application_name with
        | some name =>
          match d.access_token.get_application_entity name client_entity_uid with
          | .error e => .error (.ApplicationEntity e)
          | .ok application_entity =>
            .ok ⟨list ++ [application_entity], user_entity_uid⟩
        | none => .ok ⟨list, user_entity_uid⟩

/-! ## Request assembly and the handle pipeline (`src/authz/src/authz.rs`) -/

/-- Parser for the cedar entity-uid literal syntax
`Path::"eid"` (`EntityUid::from_str`): one or more `::`-separated
identifiers followed by a quoted entity id ending the string. -/
def fromStrAux : Nat → List Char → List Char → Except String EntityUid
  | 0, _, _ => .error "expected an entity uid literal"
  | f + 1, acc, cs =>
    let id := cs.takeWhile (fun c => c.isAlphanum || c = '_')
    let rest := cs.dropWhile (fun c => c.isAlphanum || c = '_')
    if isIdentChars id then
      match rest with
      | ':' :: ':' :: '"' :: rest₂ =>
        match parseStrBody (rest₂.length + 1) rest₂ [] with
        | .error _ => .error "invalid entity id literal"
        | .ok (eid, rest₃) =>
          if rest₃.isEmpty then .ok ⟨String.mk (acc ++ id), eid⟩
          else .error "unexpected trailing characters"
      | ':' :: ':' :: rest₂ => fromStrAux f (acc ++ id ++ [':', ':']) rest₂
      | _ => .error "expected double colon"
    else .error "expected an identifier"

/-- `cedar_policy::EntityUid::from_str`. -/
def EntityUid.from_str (s : String) : Except String EntityUid :=
  fromStrAux (s.data.length + 1) [] s.data

/-- `cedar_policy::EntitiesError`: the identity-collision failure of the
entity-set union (any repeated uid is rejected). -/
inductive EntitiesError where
  | Duplicate (u : EntityUid)
deriving DecidableEq, Repr

/-- `cedar_policy::Entities::add_entities`: insert each new entity in
order, failing on the first uid already present. -/
def addEntities (base : List Entity) : List Entity → Except EntitiesError (List Entity)
  | [] => .ok base
  | e :: rest =>
    if base.any (fun b => b.uid = e.uid) then .error (.Duplicate e.uid)
    else addEntities (base ++ [e]) rest

/-- `cedar_policy::ContextJsonError`. -/
inductive ContextJsonError where
  | notAnObject
deriving DecidableEq, Repr

/-- A cedar request context. -/
structure Context where
  fields : List (String × Json)
deriving DecidableEq

/-- `cedar_policy::Context::from_json_value` without a schema: the value
must be a JSON object. -/
def Context.from_json_value : Json → Except ContextJsonError Context
  | .obj fields => .ok ⟨fields⟩
  | _ => .error .notAnObject

/-- A cedar `Request`. -/
structure Request where
  principal : Option EntityUid
  action : Option EntityUid
  resource : Option EntityUid
  context : Context
deriving DecidableEq

/-- `cedar_policy::Request::new` with no schema: no validation happens, so
construction always succeeds (the source still maps its error variant). -/
def Request.new (principal action resource : Option EntityUid)
    (context : Context) : Except String Request :=
  .ok ⟨principal, action, resource, context⟩

/-- The opaque compiled policy set (never inspected by the core). -/
structure PolicySet where
  src : String
deriving DecidableEq

/-- A cedar decision. -/
inductive Decision where
  | allow
  | deny
deriving DecidableEq, Repr

/-- A cedar `Response`: decision plus diagnostics (contributing policy
ids). -/
structure Response where
  decision : Decision
  diagnostics : List String
deriving DecidableEq

/-- The external evaluation engine (`Authorizer::is_authorized`), kept
opaque: any function from request, policy set and entity set to a
response. -/
def AuthorizerFn : Type :=
  Request → PolicySet → List Entity → Response

/-- The `Authz` service state: configured application name, decoder, policy
set and baseline entities. -/
structure Authz where
  app_name : Option String
  jwt_dec : JWTDecoder
  policy : PolicySet
  entities : List Entity

/-- `HandleError` of `authz.rs`, one variant per failing stage. -/
inductive HandleError where
  | InputJsonParse (e : JsonError)
  | DecodeTokens (e : DecodeTokensError)
  | Action (e : String)
  | Resource (e : String)
  | AuthzInputEntities (e : AuthzInputEntitiesError)
  | AddEntities (e : EntitiesError)
  | Context (e : ContextJsonError)
  | Request (e : String)
deriving DecidableEq, Repr

/-- The assembly stages of `Authz::handle`, up to but not including the
final `authorizer.is_authorized` call: decode the tokens, parse action and
resource, synthesize the token entities, union them into a clone of the
baseline, build the context, and assemble the request. -/
def Authz.assemble (az : Authz) (input : AuthzInputRaw) :
    Except HandleError (Request × List Entity) :=
  match input.decode_tokens az.jwt_dec with
  | .error e => .error (.DecodeTokens e)
  | .ok decoded_input =>
    let params := decoded_input.chedar_params
    match EntityUid.from_str params.action with
    | .error e => .error (.Action e)
    | .ok action =>
      match EntityUid.fromJsonVal params.resource with
      | .error e => .error (.Resource e)
      | .ok resource =>
        match decoded_input.jwt.entities az.app_name with
        | .error e => .error (.AuthzInputEntities e)
        | .ok jwt_entities =>
          match addEntities az.entities jwt_entities.entities with
          | .error e => .error (.AddEntities e)
          | .ok entities =>
            let principal := jwt_entities.user_entity_uid
            match Context.from_json_value params.context with
            | .error e => .error (.Context e)
            | .ok context =>
              match Request.new (some principal) (some action) (some resource) context with
              | .error e => .error (.Request e)
              | .ok request => .ok (request, entities)

/-- `Authz::handle`: the assembly stages followed by the opaque evaluator
call on the assembled request, the configured policy set and the merged
entities. -/
def Authz.handle (authorizer : AuthorizerFn) (az : Authz)
    (input : AuthzInputRaw) : Except HandleError Response :=
  match az.assemble input with
  | .error e => .error e
  | .ok (request, entities) => .ok (authorizer request az.policy entities)

/-- Schema step for `AuthzInputRaw`: three token strings plus the flattened
`CedarParams` (`action` string, `resource` and `context` JSON values);
unknown fields are ignored. -/
def AuthzInputRaw.fromJson : Json → Except JsonError AuthzInputRaw
  | .obj fields => do
    let id_token ← getStrField fields "id_token"
    let userinfo_token ← getStrField fields "userinfo_token"
    let access_token ← getStrField fields "access_token"
    let action ← getStrField fields "action"
    let resource ←
      match jlookup fields "resource" with
      | some v => pure v
      | none => .error (.missingField "resource")
    let context ←
      match jlookup fields "context" with
      | some v => pure v
      | none => .error (.missingField "context")
    pure ⟨id_token, userinfo_token, access_token, ⟨action, resource, context⟩⟩
  | _ => .error .syntaxErr

/-- `Authz::handle_raw_input`: parse the input document from a string and
run `handle`. -/
def Authz.handle_raw_input (authorizer : AuthorizerFn) (az : Authz)
    (data : String) : Except HandleError Response :=
  match serdeFromStr AuthzInputRaw.fromJson data with
  | .error e => .error (.InputJsonParse e)
  | .ok input => az.handle authorizer input

/-! ## Helper lemmas -/

theorem splitCharAux_no_sep (c : Char) (l acc : List Char) (h : c ∉ l) :
    splitCharAux c l acc = [acc.reverse ++ l] := by
  induction l generalizing acc with
  | nil => simp [splitCharAux]
  | cons x xs ih =>
    have hx : x ≠ c := fun hxc => h (hxc ▸ List.mem_cons_self x xs)
    have hxs : c ∉ xs := fun hc => h (List.mem_cons_of_mem x hc)
    simp [splitCharAux, hx, ih _ hxs]

theorem rustSplit_no_sep (c : Char) (s : String) (h : c ∉ s.data) :
    rustSplit c s = [s] := by
  cases s with
  | mk data =>
    simp only [rustSplit] at *
    rw [splitCharAux_no_sep c data [] h]
    simp

theorem validList_map_str (l : List String) :
    RExpr.validList (l.map RExpr.str) = true := by
  induction l with
  | nil => rfl
  | cons x xs ih => simp [List.map, RExpr.validList, RExpr.valid, ih]

theorem Entity.new_ok (uid : EntityUid) (attrs : List (String × RExpr))
    (parents : List EntityUid) (e : Entity)
    (h : Entity.new uid attrs parents = .ok e) : e = ⟨uid, attrs, parents⟩ := by
  unfold Entity.new at h
  split at h
  · exact (Except.ok.injEq _ _ ▸ h).symm
  · exact absurd h (by simp)

theorem euidFromJsonVal_entity (ty id : String) (h : isTypeName ty = true) :
    EntityUid.fromJsonVal
      (.obj [("__entity", .obj [("type", .str ty), ("id", .str id)])]) =
      .ok ⟨ty, id⟩ := by
  simp [EntityUid.fromJsonVal, euidFieldsToUid, h]

theorem get_token_entity_uid (t : IdToken) (e : Entity)
    (h : t.get_token_entity = .ok e) : e.uid = ⟨"IdToken", t.jti⟩ := by
  unfold IdToken.get_token_entity at h
  rw [euidFromJsonVal_entity "IdToken" t.jti (by decide)] at h
  simp only [] at h
  split at h
  · exact absurd h (by simp)
  · next e₀ hnew =>
    have := Entity.new_ok _ _ _ _ hnew
    cases h
    rw [this]

theorem get_user_entity_uid (t : UserInfoToken) (roles : List Entity) (e : Entity)
    (h : t.get_user_entity roles = .ok e) : e.uid = ⟨"User", t.inum⟩ := by
  unfold UserInfoToken.get_user_entity at h
  rw [euidFromJsonVal_entity "User" t.inum (by decide)] at h
  simp only [] at h
  split at h
  · exact absurd h (by simp)
  · next e₀ hnew =>
    have := Entity.new_ok _ _ _ _ hnew
    cases h
    rw [this]

theorem get_client_entity_eq (t : AccessToken) :
    t.get_client_entity =
      .ok ⟨⟨"Client", t.aud⟩, [("client_id", .str t.client_id), ("iss", .str t.iss)], []⟩ := by
  unfold AccessToken.get_client_entity
  rw [euidFromJsonVal_entity "Client" t.aud (by decide)]
  simp [Entity.new, RExpr.valid]

theorem get_application_entity_eq (t : AccessToken) (name : String) (cu : EntityUid) :
    t.get_application_entity name cu =
      .ok ⟨⟨"Application", t.aud⟩, [("name", .str name), ("client", .euid cu)], []⟩ := by
  unfold AccessToken.get_application_entity
  rw [euidFromJsonVal_entity "Application" t.aud (by decide)]
  simp [Entity.new, RExpr.valid]

/-- Success shape of `JWTData::entities`: the three unconditional entities
in order, the application entity appended exactly when a name is
configured, and the principal uid taken from the user entity. -/
theorem entities_ok_shape (d : JWTData) (app : Option String) (r : JWTDataEntities)
    (h : d.entities app = .ok r) :
    ∃ idE userE clientE,
      d.id_token.get_token_entity = .ok idE ∧
      d.userinfo_token.get_user_entity [] = .ok userE ∧
      d.access_token.get_client_entity = .ok clientE ∧
      r.user_entity_uid = userE.uid ∧
      ((app = none ∧ r.entities = [idE, userE, clientE]) ∨
        (∃ name appE, app = some name ∧
          d.access_token.get_application_entity name clientE.uid = .ok appE ∧
          r.entities = [idE, userE, clientE, appE])) := by
  unfold JWTData.entities at h
  cases hid : d.id_token.get_token_entity with
  | error e => rw [hid] at h; exact absurd h (by simp)
  | ok idE =>
    rw [hid] at h
    cases huser : d.userinfo_token.get_user_entity [] with
    | error e => rw [huser] at h; exact absurd h (by simp)
    | ok userE =>
      rw [huser] at h
      cases hclient : d.access_token.get_client_entity with
      | error e => rw [hclient] at h; exact absurd h (by simp)
      | ok clientE =>
        rw [hclient] at h
        cases app with
        | none =>
          simp only [] at h
          cases h
          exact ⟨idE, userE, clientE, rfl, rfl, rfl, rfl, Or.inl ⟨rfl, rfl⟩⟩
        | some name =>
          simp only [] at h
          cases happ : d.access_token.get_application_entity name clientE.uid with
          | error e => rw [happ] at h; exact absurd h (by simp)
          | ok appE =>
            rw [happ] at h
            cases h
            exact ⟨idE, userE, clientE, rfl, rfl, rfl, rfl,
              Or.inr ⟨name, appE, rfl, happ, rfl⟩⟩

theorem addEntities_ok_append (base l r : List Entity)
    (h : addEntities base l = .ok r) : r = base ++ l := by
  induction l generalizing base with
  | nil =>
    unfold addEntities at h
    cases h
    simp
  | cons e rest ih =>
    unfold addEntities at h
    split at h
    · exact absurd h (by simp)
    · have := ih (base ++ [e]) h
      simpa using this

theorem addEntities_collision (base l : List Entity) (b e : Entity)
    (hb : b ∈ base) (he : e ∈ l) (huid : b.uid = e.uid) :
    ∃ err, addEntities base l = .error err := by
  induction l generalizing base with
  | nil => cases he
  | cons x rest ih =>
    unfold addEntities
    by_cases hx : base.any (fun b => decide (b.uid = x.uid))
    · exact ⟨.Duplicate x.uid, by simp [hx]⟩
    · rcases List.mem_cons.mp he with hex | herest
      · subst hex
        exact absurd (List.any_eq_true.mpr ⟨b, hb, by simp [huid]⟩) hx
      · have hb' : b ∈ base ++ [x] := List.mem_append_left _ hb
        rcases ih (base ++ [x]) hb' herest with ⟨err, herr⟩
        refine ⟨err, ?_⟩
        simp only [hx]
        simpa using herr

theorem jsonListToExpressions_eq_filterMap (l : List Json) :
    jsonListToExpressions l = l.filterMap json_to_expression := by
  induction l with
  | nil => rfl
  | cons x xs ih =>
    cases hx : json_to_expression x <;>
      simp [jsonListToExpressions, hx, ih]

/-! ## Concrete fixtures used by the witnesses -/

/-- A plain-JSON userinfo payload (brace characters written as escapes). -/
def uiPayload : String :=
  "\x7b\"jti\":\"t2\",\"iss\":\"i1\",\"sub\":\"s1\",\"aud\":\"a1\",\"inum\":\"u1\"\x7d"

/-- The same payload transport-encoded (base64url), as a standard JWT
would carry it. -/
def uiPayloadB64 : String :=
  "eyJqdGkiOiJ0MiIsImlzcyI6ImkxIiwic3ViIjoiczEiLCJhdWQiOiJhMSIsImludW0iOiJ1MSJ9"

def uiTokStr : String := "h." ++ uiPayload

def uiTokB64Str : String := "h." ++ uiPayloadB64

def idTokStr : String :=
  "h.\x7b\"jti\":\"t1\",\"iss\":\"i1\",\"aud\":\"a1\",\"sub\":\"s1\",\"iat\":1,\"exp\":2\x7d"

def acTokStr : String :=
  "h.\x7b\"jti\":\"t3\",\"iss\":\"i2\",\"aud\":\"app1\",\"scope\":[],\"client_id\":\"c1\",\"exp\":2,\"iat\":1\x7d"

def idTokC : IdToken := ⟨"t1", "i1", "a1", "s1", 1, 2, none, none, [], []⟩

def uiTokC : UserInfoToken := ⟨"t2", "i1", "s1", "a1", "u1", []⟩

def acTokC : AccessToken := ⟨"t3", "i2", "app1", [], "c1", 2, 1, []⟩

def jwtDataC : JWTData := ⟨idTokC, uiTokC, acTokC⟩

def cedarParamsC : CedarParams :=
  ⟨"Action::\"view\"", .obj [("type", .str "Folder"), ("id", .str "f1")], .obj []⟩

def inputC : AuthzInputRaw := ⟨idTokStr, uiTokStr, acTokStr, cedarParamsC⟩

def authzC : Authz := ⟨none, .withoutValidation, ⟨""⟩, []⟩

def idEntC : Entity :=
  ⟨⟨"IdToken", "t1"⟩,
   [("jti", .str "t1"), ("aud", .str "a1"), ("sub", .str "s1"),
    ("iat", .long 1), ("exp", .long 2), ("amr", .set [])], []⟩

def userEntC : Entity := ⟨⟨"User", "u1"⟩, [("sub", .str "s1")], []⟩

def clientEntC : Entity :=
  ⟨⟨"Client", "app1"⟩, [("client_id", .str "c1"), ("iss", .str "i2")], []⟩

def appEntC : Entity :=
  ⟨⟨"Application", "app1"⟩,
   [("name", .str "Demo_App"), ("client", .euid ⟨"Client", "app1"⟩)], []⟩

/-- An authorizer that denies everything: the simplest concrete stand-in
for the opaque engine. -/
def denyAll : AuthorizerFn := fun _ _ _ => ⟨.deny, []⟩

/-! ## The claims -/

/-- Claim C1: a token string in which splitting on the fixed delimiter
yields fewer than two segments — that is, a string containing no dot —
always fails in unvalidated decoding with the MalformedToken error
(DecodeError::MalformedJWT), for every target claim schema. -/
theorem claim_C1_no_delimiter_malformed {α : Type}
    (fromJson : Json → Except JsonError α) (jwt : String)
    (h : '.' ∉ jwt.data) :
    decode_jwt_without_validation fromJson jwt = .error .MalformedJWT := by
  unfold decode_jwt_without_validation
  rw [rustSplit_no_sep '.' jwt h]
  rfl

theorem claim_C1_witness :
    '.' ∉ "tokenwithnodots".data ∧
      decode_jwt_without_validation UserInfoToken.fromJson "tokenwithnodots" =
        .error .MalformedJWT :=
  ⟨by decide,
   claim_C1_no_delimiter_malformed UserInfoToken.fromJson "tokenwithnodots" (by decide)⟩

/-- Claim C2: the unvalidated decoder takes exactly the second
dot-separated segment and hands that segment, as it stands, to the JSON
deserializer for the target schema — no transport (base64) decoding
happens first.  It succeeds exactly when the segment deserializes to the
claim record, and surfaces every deserialization failure as
DecodeError::UnableToParseBase64AsJson. -/
theorem claim_C2_payload_parsed_directly {α : Type}
    (fromJson : Json → Except JsonError α) (jwt seg : String)
    (h : (rustSplit '.' jwt).get? 1 = some seg) :
    (∀ t, decode_jwt_without_validation fromJson jwt = .ok t ↔
        serdeFromStr fromJson seg = .ok t) ∧
    (∀ e, serdeFromStr fromJson seg = .error e →
        decode_jwt_without_validation fromJson jwt =
          .error (.UnableToParseBase64AsJson e)) := by
  unfold decode_jwt_without_validation
  rw [h]
  cases hs : serdeFromStr fromJson seg with
  | ok t₀ => simp [hs]
  | error e₀ => simp [hs]

theorem claim_C2_witness :
    ((rustSplit '.' uiTokStr).get? 1 = some uiPayload ∧
      decode_jwt_without_validation UserInfoToken.fromJson uiTokStr = .ok uiTokC) ∧
    ((rustSplit '.' uiTokB64Str).get? 1 = some uiPayloadB64 ∧
      serdeFromStr UserInfoToken.fromJson uiPayloadB64 = .error .syntaxErr ∧
      decode_jwt_without_validation UserInfoToken.fromJson uiTokB64Str =
        .error (.UnableToParseBase64AsJson .syntaxErr)) :=
  ⟨⟨by decide,
    ((claim_C2_payload_parsed_directly UserInfoToken.fromJson uiTokStr uiPayload
      (by decide)).1 uiTokC).mpr (by decide)⟩,
   ⟨by decide, by decide,
    (claim_C2_payload_parsed_directly UserInfoToken.fromJson uiTokB64Str uiPayloadB64
      (by decide)).2 .syntaxErr (by decide)⟩⟩

/-- Claim C3: the generic conversion from an unmodeled JSON claim value to
a restricted expression is total and lossy exactly as specified: null is
omitted; booleans, integers, non-integral numbers and strings become the
corresponding scalar literal; an array becomes a set literal built by
converting each element, dropping unconvertible elements; a nested object
is omitted entirely. -/
theorem claim_C3_generic_json_conversion :
    json_to_expression .null = none ∧
    (∀ b, json_to_expression (.bool b) = some (.bool b)) ∧
    (∀ i, json_to_expression (.num (.int i)) = some (.long i)) ∧
    (∀ s, json_to_expression (.num (.dec s)) = some (.decimal s)) ∧
    (∀ s, json_to_expression (.str s) = some (.str s)) ∧
    (∀ l, json_to_expression (.arr l) =
      some (.set (l.filterMap json_to_expression))) ∧
    (∀ fields, json_to_expression (.obj fields) = none) :=
  ⟨rfl, fun _ => rfl, fun _ => rfl, fun _ => rfl, fun _ => rfl,
   fun l => by simp [json_to_expression, jsonListToExpressions_eq_filterMap l],
   fun _ => rfl⟩

/-- Claim C9: the unvalidated decoder inspects only the second
dot-separated segment — two token strings with the same second segment
decode identically, whatever their first, third or later segments are. -/
theorem claim_C9_only_second_segment {α : Type}
    (fromJson : Json → Except JsonError α) (jwt jwt' : String)
    (h : (rustSplit '.' jwt).get? 1 = (rustSplit '.' jwt').get? 1) :
    decode_jwt_without_validation fromJson jwt =
      decode_jwt_without_validation fromJson jwt' := by
  unfold decode_jwt_without_validation
  rw [h]

def tok4 : String := "x." ++ uiPayload ++ ".y.z"

theorem claim_C9_witness :
    ((rustSplit '.' tok4).get? 1 = (rustSplit '.' uiTokStr).get? 1 ∧
      decode_jwt_without_validation UserInfoToken.fromJson tok4 =
        decode_jwt_without_validation UserInfoToken.fromJson uiTokStr) ∧
    decode_jwt_without_validation UserInfoToken.fromJson tok4 = .ok uiTokC ∧
    decode_jwt_without_validation UserInfoToken.fromJson "a." =
      .error (.UnableToParseBase64AsJson .syntaxErr) :=
  ⟨⟨by decide,
    claim_C9_only_second_segment UserInfoToken.fromJson tok4 uiTokStr (by decide)⟩,
   by decide, by decide⟩

/-- Pairwise distinctness of an explicit three-element list. -/
theorem pairwise_ne_three {α : Type} (a b c : α) (hab : a ≠ b) (hac : a ≠ c)
    (hbc : b ≠ c) : List.Pairwise (fun x y => x ≠ y) [a, b, c] := by
  refine List.Pairwise.cons ?_ (List.Pairwise.cons ?_ (List.Pairwise.cons ?_ .nil))
  · intro x hx
    rcases List.mem_cons.mp hx with rfl | hx
    · exact hab
    · rcases List.mem_cons.mp hx with rfl | hx
      · exact hac
      · exact absurd hx (List.not_mem_nil x)
  · intro x hx
    rcases List.mem_cons.mp hx with rfl | hx
    · exact hbc
    · exact absurd hx (List.not_mem_nil x)
  · intro x hx
    exact absurd hx (List.not_mem_nil x)

/-- Pairwise distinctness of an explicit four-element list. -/
theorem pairwise_ne_four {α : Type} (a b c d : α) (hab : a ≠ b) (hac : a ≠ c)
    (had : a ≠ d) (hbc : b ≠ c) (hbd : b ≠ d) (hcd : c ≠ d) :
    List.Pairwise (fun x y => x ≠ y) [a, b, c, d] := by
  refine List.Pairwise.cons ?_ (pairwise_ne_three b c d hbc hbd hcd)
  intro x hx
  rcases List.mem_cons.mp hx with rfl | hx
  · exact hab
  · rcases List.mem_cons.mp hx with rfl | hx
    · exact hac
    · rcases List.mem_cons.mp hx with rfl | hx
      · exact had
      · exact absurd hx (List.not_mem_nil x)

/-- Uids whose type tags differ are distinct identities. -/
theorem euid_ne_of_ty_ne (t₁ t₂ i₁ i₂ : String) (h : t₁ ≠ t₂) :
    EntityUid.mk t₁ i₁ ≠ EntityUid.mk t₂ i₂ := by
  intro hc
  exact h (congrArg EntityUid.ty hc)

/-- Claim C4: whenever assembly succeeds, the principal of the assembled
request is the uid of the entity synthesized from the userinfo token —
type User, id the userinfo token's inum claim — and never the uid of the
Client entity synthesized from the access token. -/
theorem claim_C4_principal_is_user_uid (az : Authz) (input : AuthzInputRaw)
    (req : Request) (es : List Entity)
    (h : az.assemble input = .ok (req, es)) :
    ∃ ai userE,
      input.decode_tokens az.jwt_dec = .ok ai ∧
      ai.jwt.userinfo_token.get_user_entity [] = .ok userE ∧
      req.principal = some userE.uid ∧
      userE.uid = ⟨"User", ai.jwt.userinfo_token.inum⟩ ∧
      (∀ clientE, ai.jwt.access_token.get_client_entity = .ok clientE →
        req.principal ≠ some clientE.uid) := by
  unfold Authz.assemble at h
  cases hdec : input.decode_tokens az.jwt_dec with
  | error e => rw [hdec] at h; exact absurd h (by simp)
  | ok ai =>
    rw [hdec] at h
    dsimp only at h
    cases hact : EntityUid.from_str ai.chedar_params.action with
    | error e => rw [hact] at h; exact absurd h (by simp)
    | ok act =>
      rw [hact] at h
      dsimp only at h
      cases hres : EntityUid.fromJsonVal ai.chedar_params.resource with
      | error e => rw [hres] at h; exact absurd h (by simp)
      | ok res =>
        rw [hres] at h
        dsimp only at h
        cases hent : ai.jwt.entities az.app_name with
        | error e => rw [hent] at h; exact absurd h (by simp)
        | ok je =>
          rw [hent] at h
          dsimp only at h
          cases hadd : addEntities az.entities je.entities with
          | error e => rw [hadd] at h; exact absurd h (by simp)
          | ok ents =>
            rw [hadd] at h
            dsimp only at h
            cases hctx : Context.from_json_value ai.chedar_params.context with
            | error e => rw [hctx] at h; exact absurd h (by simp)
            | ok ctx =>
              rw [hctx] at h
              simp only [Request.new] at h
              cases h
              obtain ⟨idE, userE, clientE, _, huser, hclient, huid, _⟩ :=
                entities_ok_shape ai.jwt az.app_name je hent
              refine ⟨ai, userE, rfl, huser, by rw [huid], get_user_entity_uid _ _ _ huser, ?_⟩
              intro ce hce
              rw [get_client_entity_eq] at hce
              cases hce
              rw [huid, get_user_entity_uid _ _ _ huser]
              intro hc
              exact euid_ne_of_ty_ne "User" "Client" _ _ (by decide)
                (Option.some.injEq _ _ ▸ hc)

def reqC : Request :=
  ⟨some ⟨"User", "u1"⟩, some ⟨"Action", "view"⟩, some ⟨"Folder", "f1"⟩, ⟨[]⟩⟩

def esC : List Entity := [idEntC, userEntC, clientEntC]

def aiC : AuthzInput := ⟨jwtDataC, cedarParamsC⟩

theorem claim_C4_witness :
    authzC.assemble inputC = .ok (reqC, esC) ∧
    (∃ ai userE,
      inputC.decode_tokens authzC.jwt_dec = .ok ai ∧
      ai.jwt.userinfo_token.get_user_entity [] = .ok userE ∧
      reqC.principal = some userE.uid ∧
      userE.uid = ⟨"User", ai.jwt.userinfo_token.inum⟩ ∧
      (∀ clientE, ai.jwt.access_token.get_client_entity = .ok clientE →
        reqC.principal ≠ some clientE.uid)) :=
  ⟨by decide, claim_C4_principal_is_user_uid authzC inputC reqC esC (by decide)⟩

/-- Claim C5: the Application entity — identity (Application, access-token
audience), attributes the configured name and an entity reference to the
Client entity, no parents — is synthesized exactly when an application
name is configured; with no configured name, synthesis produces exactly
the IdToken, User and Client entities. -/
theorem claim_C5_application_entity_iff_configured (d : JWTData) :
    (∀ name r, d.entities (some name) = .ok r →
      ∃ idE userE clientE appE,
        r.entities = [idE, userE, clientE, appE] ∧
        appE.uid = ⟨"Application", d.access_token.aud⟩ ∧
        appE.attrs = [("name", .str name), ("client", .euid clientE.uid)] ∧
        clientE.uid = ⟨"Client", d.access_token.aud⟩ ∧
        appE.parents = []) ∧
    (∀ r, d.entities none = .ok r →
      r.entities.map (fun e => e.uid.ty) = ["IdToken", "User", "Client"]) := by
  constructor
  · intro name r h
    obtain ⟨idE, userE, clientE, hid, huser, hclient, huid, hshape⟩ :=
      entities_ok_shape d (some name) r h
    rcases hshape with ⟨hnone, _⟩ | ⟨name', appE, hname, happ, hents⟩
    · exact absurd hnone (by simp)
    · rw [get_application_entity_eq] at happ
      cases happ
      rw [get_client_entity_eq] at hclient
      cases hname
      refine ⟨idE, userE, clientE, _, hents, rfl, ?_, ?_, rfl⟩
      · rw [show clientE.uid = ⟨"Client", d.access_token.aud⟩ from
          congrArg Entity.uid (Except.ok.inj hclient).symm]
      · exact congrArg Entity.uid (Except.ok.inj hclient).symm
  · intro r h
    obtain ⟨idE, userE, clientE, hid, huser, hclient, huid, hshape⟩ :=
      entities_ok_shape d none r h
    rcases hshape with ⟨_, hents⟩ | ⟨name', appE, hname, _, _⟩
    · rw [get_client_entity_eq] at hclient
      rw [hents]
      simp [get_token_entity_uid _ _ hid, get_user_entity_uid _ _ _ huser,
        congrArg Entity.uid (Except.ok.inj hclient).symm]
    · exact absurd hname (by simp)

def jwtEntitiesC : JWTDataEntities :=
  ⟨[idEntC, userEntC, clientEntC, appEntC], ⟨"User", "u1"⟩⟩

def jwtEntitiesNoAppC : JWTDataEntities :=
  ⟨[idEntC, userEntC, clientEntC], ⟨"User", "u1"⟩⟩

theorem claim_C5_witness :
    (jwtDataC.entities (some "Demo_App") = .ok jwtEntitiesC ∧
      ∃ idE userE clientE appE,
        jwtEntitiesC.entities = [idE, userE, clientE, appE] ∧
        appE.uid = ⟨"Application", jwtDataC.access_token.aud⟩ ∧
        appE.attrs = [("name", .str "Demo_App"), ("client", .euid clientE.uid)] ∧
        clientE.uid = ⟨"Client", jwtDataC.access_token.aud⟩ ∧
        appE.parents = []) ∧
    (jwtDataC.entities none = .ok jwtEntitiesNoAppC ∧
      jwtEntitiesNoAppC.entities.map (fun e => e.uid.ty) = ["IdToken", "User", "Client"]) :=
  ⟨⟨by decide,
    (claim_C5_application_entity_iff_configured jwtDataC).1 "Demo_App" jwtEntitiesC
      (by decide)⟩,
   ⟨by decide,
    (claim_C5_application_entity_iff_configured jwtDataC).2 jwtEntitiesNoAppC
      (by decide)⟩⟩

/-- Claim C10: the entity type tags of the entities synthesized in one
call are pairwise distinct string constants, so the synthesized entities
of one call have pairwise distinct identities, whatever the claim values
are. -/
theorem claim_C10_distinct_entity_types (d : JWTData) (app : Option String)
    (r : JWTDataEntities) (h : d.entities app = .ok r) :
    (r.entities.map (fun e => e.uid.ty)).Pairwise (· ≠ ·) ∧
    (r.entities.map (fun e => e.uid)).Pairwise (· ≠ ·) := by
  obtain ⟨idE, userE, clientE, hid, huser, hclient, huid, hshape⟩ :=
    entities_ok_shape d app r h
  have hidu : idE.uid = ⟨"IdToken", d.id_token.jti⟩ := get_token_entity_uid _ _ hid
  have huseru : userE.uid = ⟨"User", d.userinfo_token.inum⟩ :=
    get_user_entity_uid _ _ _ huser
  have hclientu : clientE.uid = ⟨"Client", d.access_token.aud⟩ := by
    rw [get_client_entity_eq] at hclient
    exact congrArg Entity.uid (Except.ok.inj hclient).symm
  rcases hshape with ⟨_, hents⟩ | ⟨name, appE, _, happ, hents⟩
  · constructor
    · have hmap : r.entities.map (fun e => e.uid.ty) = ["IdToken", "User", "Client"] := by
        rw [hents]; simp [hidu, huseru, hclientu]
      rw [hmap]; decide
    · have hmap : r.entities.map (fun e => e.uid) = [idE.uid, userE.uid, clientE.uid] := by
        rw [hents]; simp
      rw [hmap, hidu, huseru, hclientu]
      exact pairwise_ne_three _ _ _
        (euid_ne_of_ty_ne _ _ _ _ (by decide))
        (euid_ne_of_ty_ne _ _ _ _ (by decide))
        (euid_ne_of_ty_ne _ _ _ _ (by decide))
  · have happu : appE.uid = ⟨"Application", d.access_token.aud⟩ := by
      rw [get_application_entity_eq] at happ
      exact congrArg Entity.uid (Except.ok.inj happ).symm
    constructor
    · have hmap : r.entities.map (fun e => e.uid.ty) =
          ["IdToken", "User", "Client", "Application"] := by
        rw [hents]; simp [hidu, huseru, hclientu, happu]
      rw [hmap]; decide
    · have hmap : r.entities.map (fun e => e.uid) =
          [idE.uid, userE.uid, clientE.uid, appE.uid] := by
        rw [hents]; simp
      rw [hmap, hidu, huseru, hclientu, happu]
      exact pairwise_ne_four _ _ _ _
        (euid_ne_of_ty_ne _ _ _ _ (by decide))
        (euid_ne_of_ty_ne _ _ _ _ (by decide))
        (euid_ne_of_ty_ne _ _ _ _ (by decide))
        (euid_ne_of_ty_ne _ _ _ _ (by decide))
        (euid_ne_of_ty_ne _ _ _ _ (by decide))
        (euid_ne_of_ty_ne _ _ _ _ (by decide))

theorem claim_C10_witness :
    jwtDataC.entities (some "Demo_App") = .ok jwtEntitiesC ∧
    ((jwtEntitiesC.entities.map (fun e => e.uid.ty)).Pairwise (· ≠ ·) ∧
      (jwtEntitiesC.entities.map (fun e => e.uid)).Pairwise (· ≠ ·)) :=
  ⟨by decide,
   claim_C10_distinct_entity_types jwtDataC (some "Demo_App") jwtEntitiesC (by decide)⟩

/-- Claim C6: when the stages before the merge succeed and a synthesized
entity's identity collides with an identity already present in the
baseline (with different attributes), the merge fails, the call surfaces
it as HandleError.AddEntities whatever the evaluator is (so no decision is
produced), and a successful merge only ever extends a copy of the
baseline, never altering it. -/
theorem claim_C6_merge_collision_error (az : Authz) (input : AuthzInputRaw)
    (ai : AuthzInput) (act res : EntityUid) (je : JWTDataEntities)
    (h1 : input.decode_tokens az.jwt_dec = .ok ai)
    (h2 : EntityUid.from_str ai.chedar_params.action = .ok act)
    (h3 : EntityUid.fromJsonVal ai.chedar_params.resource = .ok res)
    (h4 : ai.jwt.entities az.app_name = .ok je)
    (h5 : ∃ b ∈ az.entities, ∃ e ∈ je.entities, b.uid = e.uid ∧ b.attrs ≠ e.attrs) :
    (∃ err, ∀ authorizer, az.handle authorizer input = .error (.AddEntities err)) ∧
    (∀ l r, addEntities az.entities l = .ok r → r = az.entities ++ l) := by
  obtain ⟨b, hb, e, he, huid, _⟩ := h5
  obtain ⟨err, herr⟩ := addEntities_collision az.entities je.entities b e hb he huid
  refine ⟨⟨err, fun authorizer => ?_⟩, fun l r hr => addEntities_ok_append _ _ _ hr⟩
  unfold Authz.handle Authz.assemble
  rw [h1]
  dsimp only
  rw [h2]
  dsimp only
  rw [h3]
  dsimp only
  rw [h4]
  dsimp only
  rw [herr]

def baselineUserEnt : Entity := ⟨⟨"User", "u1"⟩, [("sub", .str "zz")], []⟩

def authzColl : Authz := ⟨none, .withoutValidation, ⟨""⟩, [baselineUserEnt]⟩

theorem claim_C6_witness :
    (inputC.decode_tokens authzColl.jwt_dec = .ok aiC ∧
      EntityUid.from_str aiC.chedar_params.action = .ok ⟨"Action", "view"⟩ ∧
      EntityUid.fromJsonVal aiC.chedar_params.resource = .ok ⟨"Folder", "f1"⟩ ∧
      aiC.jwt.entities authzColl.app_name = .ok jwtEntitiesNoAppC ∧
      (∃ b ∈ authzColl.entities, ∃ e ∈ jwtEntitiesNoAppC.entities,
        b.uid = e.uid ∧ b.attrs ≠ e.attrs)) ∧
    ((∃ err, ∀ authorizer,
        authzColl.handle authorizer inputC = .error (.AddEntities err)) ∧
      (∀ l r, addEntities authzColl.entities l = .ok r →
        r = authzColl.entities ++ l)) ∧
    authzColl.handle denyAll inputC =
      .error (.AddEntities (.Duplicate ⟨"User", "u1"⟩)) :=
  ⟨⟨by decide, by decide, by decide, by decide, by decide⟩,
   claim_C6_merge_collision_error authzColl inputC aiC ⟨"Action", "view"⟩
     ⟨"Folder", "f1"⟩ jwtEntitiesNoAppC (by decide) (by decide) (by decide)
     (by decide) (by decide),
   by decide⟩

/-- Claim C7: the pipeline is fail-fast — once token decoding has
succeeded, an action value that is not a well-formed identity literal
aborts the call with HandleError.Action, for every evaluator (so the
evaluator is never consulted and no decision is produced). -/
theorem claim_C7_fail_fast_action_error (az : Authz) (input : AuthzInputRaw)
    (ai : AuthzInput) (e : String)
    (h1 : input.decode_tokens az.jwt_dec = .ok ai)
    (h2 : EntityUid.from_str ai.chedar_params.action = .error e) :
    ∀ authorizer, az.handle authorizer input = .error (.Action e) := by
  intro authorizer
  unfold Authz.handle Authz.assemble
  rw [h1]
  dsimp only
  rw [h2]

def paramsBadAction : CedarParams :=
  ⟨"InvalidAction", .obj [("type", .str "Folder"), ("id", .str "f1")], .obj []⟩

def inputBadAction : AuthzInputRaw := ⟨idTokStr, uiTokStr, acTokStr, paramsBadAction⟩

def aiBadAction : AuthzInput := ⟨jwtDataC, paramsBadAction⟩

theorem claim_C7_witness :
    (inputBadAction.decode_tokens authzC.jwt_dec = .ok aiBadAction ∧
      EntityUid.from_str aiBadAction.chedar_params.action =
        .error "expected double colon") ∧
    authzC.handle denyAll inputBadAction = .error (.Action "expected double colon") :=
  ⟨⟨by decide, by decide⟩,
   claim_C7_fail_fast_action_error authzC inputBadAction aiBadAction
     "expected double colon" (by decide) (by decide) denyAll⟩

/-- Claim C8: handling is deterministic — for a fixed configuration and
evaluator, two calls of handle_raw_input on identical input strings return
identical results (same decision and diagnostics on success, same error on
failure). -/
theorem claim_C8_handle_deterministic (authorizer : AuthorizerFn) (az : Authz)
    (s₁ s₂ : String) (h : s₁ = s₂) :
    az.handle_raw_input authorizer s₁ = az.handle_raw_input authorizer s₂ := by
  rw [h]

/-- The full raw input document of the witness: the three two-segment
tokens, the action, the structured resource and an empty context, with
brace characters written as escapes and the quotes inside token payloads
JSON-escaped. -/
def rawDocC : String :=
  "\x7b\"id_token\":\"h.\x7b\\\"jti\\\":\\\"t1\\\",\\\"iss\\\":\\\"i1\\\",\\\"aud\\\":\\\"a1\\\",\\\"sub\\\":\\\"s1\\\",\\\"iat\\\":1,\\\"exp\\\":2\x7d\"," ++
  "\"userinfo_token\":\"h.\x7b\\\"jti\\\":\\\"t2\\\",\\\"iss\\\":\\\"i1\\\",\\\"sub\\\":\\\"s1\\\",\\\"aud\\\":\\\"a1\\\",\\\"inum\\\":\\\"u1\\\"\x7d\"," ++
  "\"access_token\":\"h.\x7b\\\"jti\\\":\\\"t3\\\",\\\"iss\\\":\\\"i2\\\",\\\"aud\\\":\\\"app1\\\",\\\"scope\\\":[],\\\"client_id\\\":\\\"c1\\\",\\\"exp\\\":2,\\\"iat\\\":1\x7d\"," ++
  "\"action\":\"Action::\\\"view\\\"\"," ++
  "\"resource\":\x7b\"type\":\"Folder\",\"id\":\"f1\"\x7d," ++
  "\"context\":\x7b\x7d\x7d"

set_option maxRecDepth 8192 in
theorem claim_C8_witness :
    rawDocC = rawDocC ∧
    authzC.handle_raw_input denyAll rawDocC =
      authzC.handle_raw_input denyAll rawDocC ∧
    authzC.handle_raw_input denyAll rawDocC = .ok ⟨.deny, []⟩ :=
  ⟨rfl, claim_C8_handle_deterministic denyAll authzC rawDocC rawDocC rfl, by decide⟩

end CedarDemo
